import Mathlib

/-!
Shallow embedding of the lock-handle core of the filelock repository:
`src/simple_filelock.py` (class `FileLock`) and `src/simple_filelock_async.py`
(class `AsyncFileLock`).  The two classes implement the same algorithm:

  enter:  os.makedirs(os.path.dirname(path), exist_ok=True);
          open(path, "w");
          loop { fcntl.flock(fd, LOCK_EX | LOCK_NB);
                 on BlockingIOError: if timeout and elapsed > timeout then
                   close fd; raise TimeoutError(timeout)
                 else sleep 0.1 and retry }
  exit:   if lockfile: try flock(LOCK_UN) except: pass; finally close; lockfile = None
  is_locked: if no lockfile return False; flock(LOCK_EX | LOCK_NB) then
          flock(LOCK_UN) and return False; on BlockingIOError return True.

Machine reals (Python floats) are modelled as exact rationals; the event-loop
executor dispatch of the async class is effect-transparent in this embedding,
so each dispatched call is modelled by the call itself.  Nondeterminism of the
operating system (contention on the advisory lock, I/O failures, the wall
clock) enters through explicit environment records.
-/

instance exceptDecEq {ε : Type} {α : Type} [DecidableEq ε] [DecidableEq α] :
    DecidableEq (Except ε α)
  | .ok x, .ok y =>
    if h : x = y then isTrue (by rw [h]) else isFalse (fun hc => h (Except.ok.inj hc))
  | .error e, .error f =>
    if h : e = f then isTrue (by rw [h]) else isFalse (fun hc => h (Except.error.inj hc))
  | .ok _, .error _ => isFalse (fun hc => Except.noConfusion hc)
  | .error _, .ok _ => isFalse (fun hc => Except.noConfusion hc)

/-- A filesystem path, as its list of characters. -/
abbrev FPath := List Char

/-- True when the path is made of slashes only (a spelling of the root). -/
def isSlashes (d : FPath) : Bool := d.all (fun c => decide (c = '/'))

/-- Models posixpath.split: splits at the last slash into (head, tail); the
tail holds no slash; trailing slashes are stripped from the head unless the
head consists only of slashes. -/
def splitPath (p : FPath) : FPath × FPath :=
  let r := p.reverse
  let t := r.takeWhile (fun c => !decide (c = '/'))
  let hd := r.dropWhile (fun c => !decide (c = '/'))
  let hs := hd.dropWhile (fun c => decide (c = '/'))
  (if hs = [] then hd.reverse else hs.reverse, t.reverse)

/-- Models os.path.dirname, the first component of posixpath.split. -/
def dirname (p : FPath) : FPath := (splitPath p).1

/-- The set of directories that exist, as a list of paths.  Paths made only of
slashes (the root) always exist; see `fsHas`. -/
abbrev Fs := List FPath

/-- Whether directory `d` exists in filesystem `fs`: the empty path never
exists (os.path.isdir of the empty string is False), and slash-only spellings
of the root always exist. -/
def fsHas (fs : Fs) (d : FPath) : Bool :=
  !d.isEmpty && (isSlashes d || decide (d ∈ fs))

/-- The Python exceptions that the embedded code can raise. -/
inductive PyErr where
  | fileNotFoundError
  | fileExistsError
  | osFailure
  | valueError
  | timeoutError (t : ℚ)
  deriving DecidableEq

/-- Models os.mkdir on a directory-only filesystem: mkdir of the empty string
raises FileNotFoundError (CPython behaviour of os.mkdir("")); mkdir of an
existing directory raises FileExistsError; the parent component must exist
(the empty parent is the current working directory); and even then the OS may
refuse the creation itself — `mk d = false` models EACCES/EROFS or the name
being occupied by a regular file, raising a generic OS failure. -/
def mkdir (mk : FPath → Bool) (fs : Fs) (d : FPath) : Except PyErr Fs :=
  if d = [] then .error .fileNotFoundError
  else if fsHas fs d then .error .fileExistsError
  else if (splitPath d).1 = [] ∨ fsHas fs (splitPath d).1 then
    (if mk d then .ok (d :: fs) else .error .osFailure)
  else .error .fileNotFoundError

/-- Models os.makedirs(name, exist_ok=True): split off the last component
(re-splitting when the path ends in a slash), recursively create the missing
head, then mkdir the full name, swallowing the error when the directory is
already there.  Fuel bounds the recursion depth; `name.length + 1` is always
enough.  `mk` is the per-directory creation permission of `mkdir`; a directory
that already exists is fine regardless of `mk`.  Dot components are not
modelled. -/
def makedirs (mk : FPath → Bool) : ℕ → Fs → FPath → Except PyErr Fs
  | 0, _, _ => .error .osFailure
  | n + 1, fs, name =>
    let s0 := splitPath name
    let s := if s0.2 = [] then splitPath s0.1 else s0
    let pre : Except PyErr Fs :=
      if s.1 ≠ [] ∧ s.2 ≠ [] ∧ fsHas fs s.1 = false then makedirs mk n fs s.1
      else .ok fs
    match pre with
    | .error e => .error e
    | .ok fs1 =>
      match mkdir mk fs1 name with
      | .ok fs2 => .ok fs2
      | .error e => if fsHas fs1 name then .ok fs1 else .error e

/-- Python truthiness of the `timeout` attribute: None and 0 are falsy, every
other number is truthy.  The source guards the timeout check with
`if self.timeout and ...`. -/
def pyTruthy : Option ℚ → Bool
  | none => false
  | some t => decide (t ≠ 0)

/-- Outcome of one non-blocking exclusive flock request made by the retry
loop, chosen by the environment: success, EWOULDBLOCK, or any other OS-level
failure. -/
inductive FlockOutcome where
  | ok
  | wouldBlock
  | osFail
  deriving DecidableEq

/-- Whether the descriptor stored in `self.lockfile` is still open. -/
inductive FdState where
  | opened
  | closed
  deriving DecidableEq

/-- Result of an acquisition attempt: the lock was acquired, a Python
exception was raised, or the loop is still retrying when the fuel runs out
(the code would keep polling). -/
inductive EnterOutcome where
  | acquired
  | raised (e : PyErr)
  | spin
  deriving DecidableEq

/-- Externally visible effects, recorded to compare the synchronous and the
asynchronous implementations step by step. -/
inductive Effect where
  | makedirsE (d : FPath)
  | openE (p : FPath)
  | flockTryE
  | sleepE (q : ℚ)
  | unlockE
  | closeE
  deriving DecidableEq

/-- Environment of one acquisition attempt: the directories that exist, whether
the open call succeeds, the outcome of the k-th flock request, and the value of
`time.time() - start_time` observed at the k-th would-block check. -/
structure EnterEnv where
  fs : Fs
  openOk : Bool
  flock : ℕ → FlockOutcome
  clock : ℕ → ℚ

/-- The fields of a `FileLock` instance (`__init__`). -/
structure FileLock where
  lockfile_path : FPath
  timeout : Option ℚ
  debug : Bool
  lockfile : Option FdState
  deriving DecidableEq

/-- `FileLock.__init__`: records path, timeout and debug flag; no I/O, the
lockfile field starts out as None. -/
def FileLock.init (p : FPath) (t : Option ℚ) (b : Bool) : FileLock :=
  ⟨p, t, b, none⟩

/-- The `while True` retry loop of `FileLock.__enter__`: attempt a non-blocking
exclusive flock; on BlockingIOError, if the timeout is truthy and the elapsed
time exceeds it, close the descriptor and raise TimeoutError(timeout),
otherwise sleep 0.1 s and retry.  Any other OS failure of flock propagates with
the descriptor left as is.  `k` is the attempt index, `fuel` bounds the number
of attempts; the returned FdState is the state of the opened descriptor when
the loop ends. -/
def enterLoop (t : Option ℚ) (env : EnterEnv) : ℕ → ℕ → EnterOutcome × FdState × List Effect
  | 0, _ => (.spin, .opened, [])
  | fuel + 1, k =>
    match env.flock k with
    | .ok => (.acquired, .opened, [.flockTryE])
    | .osFail => (.raised .osFailure, .opened, [.flockTryE])
    | .wouldBlock =>
      if pyTruthy t && decide (env.clock k > t.getD 0) then
        (.raised (.timeoutError (t.getD 0)), .closed, [.flockTryE, .closeE])
      else
        let r := enterLoop t env fuel (k + 1)
        (r.1, r.2.1, .flockTryE :: .sleepE (1 / 10) :: r.2.2)

/-- `FileLock.__enter__`: makedirs on the dirname, open the lock file for
writing (assigning `self.lockfile`), then run the retry loop.  An error from
makedirs or open propagates before any descriptor is stored.  Directory
creation is modelled as permitted on this path; creation-denied outcomes of
step 1 are analysed on `makedirs` directly. -/
def FileLock.enter (fuel : ℕ) (env : EnterEnv) (h : FileLock) :
    EnterOutcome × FileLock × List Effect :=
  let d := dirname h.lockfile_path
  match makedirs (fun _ => true) (d.length + 1) env.fs d with
  | .error e => (.raised e, h, [.makedirsE d])
  | .ok _ =>
    if env.openOk then
      let r := enterLoop h.timeout env fuel 0
      (r.1, { h with lockfile := some r.2.1 },
        .makedirsE d :: .openE h.lockfile_path :: r.2.2)
    else (.raised .osFailure, h, [.makedirsE d, .openE h.lockfile_path])

/-- Environment of a release: whether the unlock and the close syscalls
succeed when performed on an open descriptor. -/
structure ExitEnv where
  unlockOk : Bool
  closeOk : Bool

/-- `fcntl.flock(fd, LOCK_UN)` on the stored descriptor: on a closed Python
file it raises ValueError (from fileno()); on an open one it can fail at the
OS level. -/
def unlockCall (env : ExitEnv) : FdState → Except PyErr Unit
  | .closed => .error .valueError
  | .opened => if env.unlockOk then .ok () else .error .osFailure

/-- `file.close()`: a no-op on an already closed Python file; on an open one
it can fail at the OS level. -/
def closeCall (env : ExitEnv) : FdState → Except PyErr Unit
  | .closed => .ok ()
  | .opened => if env.closeOk then .ok () else .error .osFailure

/-- `FileLock.__exit__`: nothing happens when `self.lockfile` is None.
Otherwise: `try: flock(LOCK_UN) except Exception: pass` (the unlock result is
swallowed), then `finally: self.lockfile.close(); self.lockfile = None` — when
close itself raises, the assignment is skipped and the error propagates. -/
def FileLock.exit (env : ExitEnv) (h : FileLock) :
    Except PyErr Unit × FileLock × List Effect :=
  match h.lockfile with
  | none => (.ok (), h, [])
  | some fd =>
    let _swallowed := unlockCall env fd
    match closeCall env fd with
    | .ok _ => (.ok (), { h with lockfile := none }, [.unlockE, .closeE])
    | .error e => (.error e, h, [.unlockE, .closeE])

/-- Identity of a contender (one handle instance, sync or async: both use the
same fcntl.flock primitive on the same kernel object). -/
abbrev HandleId := ℕ

/-- Kernel state of the advisory lock on one lock file: the contender whose
descriptor holds the exclusive flock, if any.  `flockTry` models
`fcntl.flock(fd, LOCK_EX | LOCK_NB)`: it succeeds when the lock is free or
already held by the caller (flock upgrades in place), and reports EWOULDBLOCK
(`none`) when another contender holds it. -/
def flockTry (w : Option HandleId) (i : HandleId) : Option (Option HandleId) :=
  match w with
  | none => some (some i)
  | some j => if j = i then some (some i) else none

/-- Models `fcntl.flock(fd, LOCK_UN)` and the implicit release performed by the
kernel when the holding descriptor is closed: the lock is freed when the caller
holds it, and nothing changes otherwise. -/
def flockRelease (w : Option HandleId) (i : HandleId) : Option HandleId :=
  match w with
  | none => none
  | some j => if j = i then none else some j

/-- `FileLock.is_locked`: returns False when `self.lockfile` is falsy;
otherwise takes then immediately releases the non-blocking exclusive lock on
its own descriptor, returning False, and returns True on BlockingIOError.
On the closed descriptor retained after a timeout failure, flock raises
ValueError, which the method does not catch.  Returns the probe result
together with the kernel lock state it leaves behind. -/
def FileLock.is_locked (w : Option HandleId) (i : HandleId) (h : FileLock) :
    Except PyErr (Bool × Option HandleId) :=
  match h.lockfile with
  | none => .ok (false, w)
  | some .closed => .error .valueError
  | some .opened =>
    match flockTry w i with
    | none => .ok (true, w)
    | some w1 => .ok (false, flockRelease w1 i)

/-- One kernel-visible locking step taken by some contender: a non-blocking
exclusive attempt, an explicit unlock, or closing the descriptor (which also
releases the lock). -/
inductive LockEvent where
  | tryLock (i : HandleId)
  | unlock (i : HandleId)
  | closeFd (i : HandleId)

/-- State of the interleaved system: the kernel lock owner, and which
contenders currently observe themselves as holding the lock (their last flock
attempt succeeded and they have neither unlocked nor closed). -/
structure LockSys where
  world : Option HandleId
  believes : HandleId → Bool

/-- No contender holds or believes to hold the lock initially. -/
def LockSys.start : LockSys := ⟨none, fun _ => false⟩

/-- Interleaving semantics: the effect of one contender step on the kernel
lock state and on the contenders own views. -/
def LockSys.step (s : LockSys) : LockEvent → LockSys
  | .tryLock i =>
    match flockTry s.world i with
    | some w1 => ⟨w1, fun k => if k = i then true else s.believes k⟩
    | none => s
  | .unlock i => ⟨flockRelease s.world i, fun k => if k = i then false else s.believes k⟩
  | .closeFd i => ⟨flockRelease s.world i, fun k => if k = i then false else s.believes k⟩

/-- The state reached after an arbitrary interleaving of contender steps. -/
def LockSys.run (es : List LockEvent) : LockSys :=
  es.foldl LockSys.step LockSys.start

/-- The fields of an `AsyncFileLock` instance (`__init__`).  The event-loop
reference stored by the constructor carries no locking state and is omitted. -/
structure AsyncFileLock where
  lockfile_path : FPath
  timeout : Option ℚ
  debug : Bool
  lockfile : Option FdState
  deriving DecidableEq

/-- `AsyncFileLock.__init__`. -/
def AsyncFileLock.init (p : FPath) (t : Option ℚ) (b : Bool) : AsyncFileLock :=
  ⟨p, t, b, none⟩

/-- The `while True` retry loop of `AsyncFileLock.__aenter__`: the flock
request and the close run through `loop.run_in_executor` (same call, executed
off the event loop), and the retry delay is `await asyncio.sleep(0.1)` instead
of `time.sleep(0.1)` — the same 0.1 s delay effect. -/
def aenterLoop (t : Option ℚ) (env : EnterEnv) : ℕ → ℕ → EnterOutcome × FdState × List Effect
  | 0, _ => (.spin, .opened, [])
  | fuel + 1, k =>
    match env.flock k with
    | .ok => (.acquired, .opened, [.flockTryE])
    | .osFail => (.raised .osFailure, .opened, [.flockTryE])
    | .wouldBlock =>
      if pyTruthy t && decide (env.clock k > t.getD 0) then
        (.raised (.timeoutError (t.getD 0)), .closed, [.flockTryE, .closeE])
      else
        let r := aenterLoop t env fuel (k + 1)
        (r.1, r.2.1, .flockTryE :: .sleepE (1 / 10) :: r.2.2)

/-- `AsyncFileLock.__aenter__`: makedirs and open dispatched through
`run_in_executor`, then the retry loop. -/
def AsyncFileLock.aenter (fuel : ℕ) (env : EnterEnv) (h : AsyncFileLock) :
    EnterOutcome × AsyncFileLock × List Effect :=
  let d := dirname h.lockfile_path
  match makedirs (fun _ => true) (d.length + 1) env.fs d with
  | .error e => (.raised e, h, [.makedirsE d])
  | .ok _ =>
    if env.openOk then
      let r := aenterLoop h.timeout env fuel 0
      (r.1, { h with lockfile := some r.2.1 },
        .makedirsE d :: .openE h.lockfile_path :: r.2.2)
    else (.raised .osFailure, h, [.makedirsE d, .openE h.lockfile_path])

/-- `AsyncFileLock.__aexit__`: same structure as `FileLock.__exit__`, each
syscall dispatched through `run_in_executor`. -/
def AsyncFileLock.aexit (env : ExitEnv) (h : AsyncFileLock) :
    Except PyErr Unit × AsyncFileLock × List Effect :=
  match h.lockfile with
  | none => (.ok (), h, [])
  | some fd =>
    let _swallowed := unlockCall env fd
    match closeCall env fd with
    | .ok _ => (.ok (), { h with lockfile := none }, [.unlockE, .closeE])
    | .error e => (.error e, h, [.unlockE, .closeE])

/-- `AsyncFileLock.is_locked`: same probe as the synchronous method, each
flock dispatched through `run_in_executor`. -/
def AsyncFileLock.is_locked (w : Option HandleId) (i : HandleId) (h : AsyncFileLock) :
    Except PyErr (Bool × Option HandleId) :=
  match h.lockfile with
  | none => .ok (false, w)
  | some .closed => .error .valueError
  | some .opened =>
    match flockTry w i with
    | none => .ok (true, w)
    | some w1 => .ok (false, flockRelease w1 i)

/-! Helper lemmas about the path model. -/

/-- A path is a good head when it can only end in a slash by being all
slashes.  Every head produced by `splitPath` has this shape, and only such
paths reach `makedirs` recursively. -/
def goodHead (d : FPath) : Prop := d.getLast? = some '/' → isSlashes d = true

lemma all_slash_of_isSlashes {d : FPath} (h : isSlashes d = true) : ∀ c ∈ d, c = '/' := by
  intro c hc
  have := List.all_eq_true.mp h c hc
  simpa using this

lemma takeWhile_nil_of_false {p : Char → Bool} :
    ∀ {l : List Char}, (∀ x ∈ l, p x = false) → l.takeWhile p = []
  | [], _ => rfl
  | a :: l, h => by simp [List.takeWhile_cons, h a (List.mem_cons_self a l)]

lemma dropWhile_head_false {p : Char → Bool} :
    ∀ {l : List Char} {a : Char} {rest : List Char}, l.dropWhile p = a :: rest → p a = false := by
  intro l
  induction l with
  | nil => intro a rest h; simp at h
  | cons b l ih =>
    intro a rest h
    rw [List.dropWhile_cons] at h
    by_cases hb : p b = true
    · rw [if_pos hb] at h
      exact ih h
    · rw [if_neg hb] at h
      injection h with h1 _
      subst h1
      simpa using hb

/-- Unfolded form of `splitPath`, for rewriting. -/
lemma splitPath_def (p : FPath) : splitPath p =
    (if (p.reverse.dropWhile (fun c => !decide (c = '/'))).dropWhile
        (fun c => decide (c = '/')) = []
     then (p.reverse.dropWhile (fun c => !decide (c = '/'))).reverse
     else ((p.reverse.dropWhile (fun c => !decide (c = '/'))).dropWhile
        (fun c => decide (c = '/'))).reverse,
     (p.reverse.takeWhile (fun c => !decide (c = '/'))).reverse) := rfl

lemma splitPath_slashes {d : FPath} (h : isSlashes d = true) : splitPath d = (d, []) := by
  have hall : ∀ c ∈ d.reverse, c = '/' :=
    fun c hc => all_slash_of_isSlashes h c (List.mem_reverse.mp hc)
  have ht : d.reverse.takeWhile (fun c => !decide (c = '/')) = [] :=
    takeWhile_nil_of_false (fun x hx => by simp [hall x hx])
  have hhd : d.reverse.dropWhile (fun c => !decide (c = '/')) = d.reverse := by
    cases hr : d.reverse with
    | nil => rfl
    | cons a l =>
      rw [List.dropWhile_cons]
      have ha : a = '/' := hall a (by rw [hr]; exact List.mem_cons_self a l)
      simp [ha]
  have hhs : (d.reverse.dropWhile (fun c => !decide (c = '/'))).dropWhile
      (fun c => decide (c = '/')) = [] := by
    rw [hhd]
    exact List.dropWhile_eq_nil_iff.mpr (fun x hx => by simp [hall x hx])
  rw [splitPath_def, ht, hhs, hhd]
  simp

lemma splitPath_snd_ne {d : FPath} (hne : d ≠ []) (hlast : d.getLast? ≠ some '/') :
    (splitPath d).2 ≠ [] := by
  cases hr : d.reverse with
  | nil => exact absurd (List.reverse_eq_nil_iff.mp hr) hne
  | cons a l =>
    have hha : d.getLast? = some a := by
      rw [← List.head?_reverse, hr]
      rfl
    have ha : ¬(a = '/') := fun h => hlast (by rw [hha, h])
    rw [splitPath_def]
    simp only [hr, List.takeWhile_cons]
    simp [ha]

lemma splitPath_fst_good (p : FPath) : goodHead (splitPath p).1 := by
  intro hlast
  by_cases hhs : (p.reverse.dropWhile (fun c => !decide (c = '/'))).dropWhile
      (fun c => decide (c = '/')) = []
  · have hall : ∀ x ∈ p.reverse.dropWhile (fun c => !decide (c = '/')), x = '/' := by
      intro x hx
      have := List.dropWhile_eq_nil_iff.mp hhs x hx
      simpa using this
    rw [splitPath_def, if_pos hhs]
    exact List.all_eq_true.mpr
      (fun c hc => by simp [hall c (List.mem_reverse.mp hc)])
  · exfalso
    rcases hcase : (p.reverse.dropWhile (fun c => !decide (c = '/'))).dropWhile
        (fun c => decide (c = '/')) with _ | ⟨a, rest⟩
    · exact hhs hcase
    · have ha : ¬(a = '/') := by simpa using dropWhile_head_false hcase
      rw [splitPath_def, if_neg hhs, hcase, List.getLast?_reverse] at hlast
      exact ha (by simpa using hlast)

lemma splitPath_fst_len {d : FPath} (h2 : (splitPath d).2 ≠ []) :
    (splitPath d).1.length < d.length := by
  have hsum : (d.reverse.takeWhile (fun c => !decide (c = '/'))).length +
      (d.reverse.dropWhile (fun c => !decide (c = '/'))).length = d.length := by
    have h1 := congrArg List.length
      (List.takeWhile_append_dropWhile (fun c => !decide (c = '/')) d.reverse)
    rw [List.length_append, List.length_reverse] at h1
    exact h1
  have ht : (d.reverse.takeWhile (fun c => !decide (c = '/'))).length ≠ 0 := by
    intro h0
    apply h2
    rw [splitPath_def]
    rw [List.length_eq_zero.mp h0]
    rfl
  have hdrop : ((d.reverse.dropWhile (fun c => !decide (c = '/'))).dropWhile
      (fun c => decide (c = '/'))).length ≤
      (d.reverse.dropWhile (fun c => !decide (c = '/'))).length :=
    List.Sublist.length_le (List.dropWhile_sublist _)
  rw [splitPath_def]
  by_cases hhs : (d.reverse.dropWhile (fun c => !decide (c = '/'))).dropWhile
      (fun c => decide (c = '/')) = []
  · rw [if_pos hhs]
    simp only [List.length_reverse]
    omega
  · rw [if_neg hhs]
    simp only [List.length_reverse]
    omega

lemma fsHas_slashes {fs : Fs} {d : FPath} (hA : isSlashes d = true) (hd : d ≠ []) :
    fsHas fs d = true := by
  simp [fsHas, hA, List.isEmpty_iff, hd]

lemma fsHas_mem {fs : Fs} {d : FPath} (hd : d ≠ []) (hm : d ∈ fs) : fsHas fs d = true := by
  simp [fsHas, List.isEmpty_iff, hd, hm]

/-- When the OS permits every directory creation, `makedirs` with enough fuel
succeeds on every non-empty good-head path, and afterwards the directory
exists. -/
lemma makedirs_ok (mk : FPath → Bool) (hmk : ∀ q, mk q = true) :
    ∀ (n : ℕ) (fs : Fs) (d : FPath), goodHead d → d ≠ [] → d.length < n →
    ∃ fs1, makedirs mk n fs d = .ok fs1 ∧ fsHas fs1 d = true := by
  intro n
  induction n with
  | zero => intro fs d _ _ hlen; omega
  | succ n ih =>
    intro fs d hgood hd hlen
    by_cases hA : isSlashes d = true
    · have hsp := splitPath_slashes hA
      refine ⟨fs, ?_, fsHas_slashes hA hd⟩
      simp only [makedirs, hsp, mkdir]
      simp [hd, fsHas_slashes hA hd]
    · have hlast : d.getLast? ≠ some '/' := fun hl => hA (hgood hl)
      have ht2 : (splitPath d).2 ≠ [] := splitPath_snd_ne hd hlast
      by_cases hg : (splitPath d).1 ≠ [] ∧ (splitPath d).2 ≠ [] ∧ fsHas fs (splitPath d).1 = false
      · have hlt : (splitPath d).1.length < n := by
          have := splitPath_fst_len ht2
          omega
        obtain ⟨fs1, hrec, hhas1⟩ := ih fs (splitPath d).1 (splitPath_fst_good d) hg.1 hlt
        by_cases hfd : fsHas fs1 d = true
        · refine ⟨fs1, ?_, hfd⟩
          simp only [makedirs, if_neg ht2, if_pos hg, hrec, mkdir]
          simp [hd, hfd]
        · refine ⟨d :: fs1, ?_, fsHas_mem hd (List.mem_cons_self d fs1)⟩
          simp only [makedirs, if_neg ht2, if_pos hg, hrec, mkdir]
          simp [hd, hfd, hhas1, hmk d]
      · have hpar : (splitPath d).1 = [] ∨ fsHas fs (splitPath d).1 = true := by
          by_cases hp0 : (splitPath d).1 = []
          · exact Or.inl hp0
          · right
            by_contra hpf
            exact hg ⟨hp0, ht2, by simpa using hpf⟩
        by_cases hfd : fsHas fs d = true
        · refine ⟨fs, ?_, hfd⟩
          simp only [makedirs, if_neg ht2, if_neg hg, mkdir]
          simp [hd, hfd]
        · refine ⟨d :: fs, ?_, fsHas_mem hd (List.mem_cons_self d fs)⟩
          simp only [makedirs, if_neg ht2, if_neg hg, mkdir]
          simp [hd, hfd, hpar, hmk d]

/-! Helper lemmas about the acquisition loop, release and the lock system. -/

lemma enterLoop_blocked_timeout {t : ℚ} (ht : t ≠ 0) {env : EnterEnv}
    (hb : ∀ k, env.flock k = .wouldBlock) :
    ∀ (fuel k0 : ℕ), (∃ j, j < fuel ∧ env.clock (k0 + j) > t) →
      (enterLoop (some t) env fuel k0).1 = .raised (.timeoutError t) ∧
      (enterLoop (some t) env fuel k0).2.1 = .closed := by
  intro fuel
  induction fuel with
  | zero =>
    rintro k0 ⟨j, hj, -⟩
    omega
  | succ n ih =>
    rintro k0 ⟨j, hj, hc⟩
    by_cases hck : env.clock k0 > t
    · simp [enterLoop, hb k0, pyTruthy, ht, hck]
    · have hj0 : j ≠ 0 := by
        intro h0
        rw [h0, Nat.add_zero] at hc
        exact hck hc
      have hrec := ih (k0 + 1) ⟨j - 1, by omega, by
        have hkj : k0 + 1 + (j - 1) = k0 + j := by omega
        rw [hkj]
        exact hc⟩
      have hck2 : ¬(t < env.clock k0) := hck
      simp only [enterLoop, hb k0]
      rw [if_neg (by simp [pyTruthy, ht, hck2])]
      simpa using hrec

lemma enterLoop_falsy_spin {t : Option ℚ} (ht : pyTruthy t = false) {env : EnterEnv}
    (hb : ∀ k, env.flock k = .wouldBlock) :
    ∀ (fuel k0 : ℕ),
      (enterLoop t env fuel k0).1 = .spin ∧ (enterLoop t env fuel k0).2.1 = .opened := by
  intro fuel
  induction fuel with
  | zero => intro k0; exact ⟨rfl, rfl⟩
  | succ n ih =>
    intro k0
    simp only [enterLoop, hb k0]
    rw [if_neg (by simp [ht])]
    simpa using ih (k0 + 1)

lemma enterLoop_falsy_no_timeout {t : Option ℚ} (ht : pyTruthy t = false) (env : EnterEnv) :
    ∀ (fuel k0 : ℕ) (x : ℚ),
      (enterLoop t env fuel k0).1 ≠ .raised (.timeoutError x) := by
  intro fuel
  induction fuel with
  | zero => intro k0 x h; exact EnterOutcome.noConfusion h
  | succ n ih =>
    intro k0 x
    cases hf : env.flock k0 with
    | ok => simp [enterLoop, hf]
    | osFail => simp [enterLoop, hf]
    | wouldBlock =>
      simp only [enterLoop, hf]
      rw [if_neg (by simp [ht])]
      simpa using ih (k0 + 1) x

lemma enter_proj (fuel : ℕ) (env : EnterEnv) (h : FileLock)
    (hd : dirname h.lockfile_path ≠ []) (ho : env.openOk = true) :
    (FileLock.enter fuel env h).1 = (enterLoop h.timeout env fuel 0).1 ∧
    ((FileLock.enter fuel env h).2.1).lockfile = some (enterLoop h.timeout env fuel 0).2.1 := by
  obtain ⟨fs1, hmd, -⟩ := makedirs_ok (fun _ => true) (fun _ => rfl)
    ((dirname h.lockfile_path).length + 1) env.fs
    (dirname h.lockfile_path) (splitPath_fst_good h.lockfile_path) hd (by omega)
  simp [FileLock.enter, hmd, ho]

lemma exit_clears {env : ExitEnv} (hc : env.closeOk = true) (h : FileLock) :
    ((FileLock.exit env h).2.1).lockfile = none := by
  cases hl : h.lockfile with
  | none => simp [FileLock.exit, hl]
  | some fd =>
    cases fd with
    | closed => simp [FileLock.exit, hl, closeCall]
    | opened => simp [FileLock.exit, hl, closeCall, hc]

/-- The invariant of the interleaved lock system: a contender observes itself
as holding the lock only when the kernel says it is the owner. -/
def LockInv (s : LockSys) : Prop := ∀ i, s.believes i = true → s.world = some i

lemma flockTry_some {w : Option HandleId} {i : HandleId} {w1 : Option HandleId}
    (h : flockTry w i = some w1) : w1 = some i ∧ (w = none ∨ w = some i) := by
  cases w with
  | none =>
    simp only [flockTry] at h
    injection h with h1
    exact ⟨h1.symm, Or.inl rfl⟩
  | some j =>
    simp only [flockTry] at h
    by_cases hji : j = i
    · rw [if_pos hji] at h
      injection h with h1
      exact ⟨h1.symm, Or.inr (by rw [hji])⟩
    · rw [if_neg hji] at h
      exact Option.noConfusion h

lemma lockInv_step {s : LockSys} (hs : LockInv s) (e : LockEvent) : LockInv (s.step e) := by
  cases e with
  | tryLock i =>
    cases htry : flockTry s.world i with
    | none =>
      intro k hk
      simpa [LockSys.step, htry] using hs k (by simpa [LockSys.step, htry] using hk)
    | some w1 =>
      obtain ⟨rfl, hw⟩ := flockTry_some htry
      intro k hk
      simp only [LockSys.step, htry] at hk ⊢
      by_cases hki : k = i
      · rw [hki]
      · rw [if_neg hki] at hk
        have hwk := hs k hk
        rcases hw with hw | hw
        · rw [hw] at hwk
          exact Option.noConfusion hwk
        · rw [hw] at hwk
          injection hwk with h1
          exact absurd h1.symm hki
  | unlock i =>
    intro k hk
    simp only [LockSys.step] at hk ⊢
    by_cases hki : k = i
    · rw [if_pos hki] at hk
      exact Bool.noConfusion hk
    · rw [if_neg hki] at hk
      have hw := hs k hk
      rw [hw]
      simp only [flockRelease]
      rw [if_neg hki]
  | closeFd i =>
    intro k hk
    simp only [LockSys.step] at hk ⊢
    by_cases hki : k = i
    · rw [if_pos hki] at hk
      exact Bool.noConfusion hk
    · rw [if_neg hki] at hk
      have hw := hs k hk
      rw [hw]
      simp only [flockRelease]
      rw [if_neg hki]

lemma lockInv_run (es : List LockEvent) : LockInv (LockSys.run es) := by
  have hgen : ∀ (l : List LockEvent) (s : LockSys), LockInv s → LockInv (l.foldl LockSys.step s) := by
    intro l
    induction l with
    | nil => intro s hs; exact hs
    | cons e l ih =>
      intro s hs
      exact ih (s.step e) (lockInv_step hs e)
  exact hgen es LockSys.start (fun i h => Bool.noConfusion h)

lemma aenterLoop_eq_enterLoop (t : Option ℚ) (env : EnterEnv) :
    ∀ (fuel k : ℕ), aenterLoop t env fuel k = enterLoop t env fuel k := by
  intro fuel
  induction fuel with
  | zero => intro k; rfl
  | succ n ih =>
    intro k
    simp only [aenterLoop, enterLoop]
    cases env.flock k with
    | ok => rfl
    | osFail => rfl
    | wouldBlock => rw [ih (k + 1)]

lemma enterLoop_osFail_first {t : Option ℚ} {env : EnterEnv} (hf : env.flock 0 = .osFail)
    (m : ℕ) :
    (enterLoop t env (m + 1) 0).1 = .raised .osFailure ∧
    (enterLoop t env (m + 1) 0).2.1 = .opened := by
  simp [enterLoop, hf]

/-! Concrete fixtures used by the counterexamples and witnesses. -/

/-- A filesystem in which /tmp exists. -/
def tmpFs : Fs := ["/tmp".data]

/-- The lock path /tmp/t.lock. -/
def pLock : FPath := "/tmp/t.lock".data

/-- Environment in which another contender holds the lock at every poll and
the elapsed time at the k-th check is k + 2 seconds. -/
def envBlocked : EnterEnv := ⟨tmpFs, true, fun _ => .wouldBlock, fun k => ((k + 2 : ℕ) : ℚ)⟩

/-- Environment in which every flock request fails with a non-would-block OS
error. -/
def envOsFail : EnterEnv := ⟨tmpFs, true, fun _ => .osFail, fun k => (k : ℚ)⟩

/-- Environment in which the lock is free. -/
def envFree : EnterEnv := ⟨tmpFs, true, fun _ => .ok, fun k => (k : ℚ)⟩

/-- The handle state reached after an acquisition that failed with the
timeout error (timeout 1 s, lock continuously held elsewhere). -/
def hTimedOut : FileLock :=
  (FileLock.enter 5 envBlocked (FileLock.init pLock (some 1) false)).2.1

/-- A handle currently holding an open descriptor. -/
def hOpen : FileLock := ⟨pLock, none, false, some FdState.opened⟩

/-! Claims. -/

/-- Claim C1 (confirmed): over every interleaving of kernel-visible locking
steps by any mix of synchronous and asynchronous contenders on one lock file,
at most one contender observes itself as holding the lock at any instant, and
while contender j holds it, a non-blocking exclusive request by any other
contender i reports would-block. -/
theorem c1_mutual_exclusion (es : List LockEvent) (i j : HandleId) (hij : i ≠ j) :
    ¬((LockSys.run es).believes i = true ∧ (LockSys.run es).believes j = true) ∧
    ((LockSys.run es).believes j = true → flockTry (LockSys.run es).world i = none) := by
  have hinv := lockInv_run es
  constructor
  · rintro ⟨hi, hj⟩
    have h1 := hinv i hi
    have h2 := hinv j hj
    rw [h1] at h2
    injection h2 with h3
    exact hij h3
  · intro hj
    rw [hinv j hj]
    simp only [flockTry]
    rw [if_neg (fun hji : j = i => hij hji.symm)]

/-- Witness for C1: after contender 0 takes the lock, contender 1 is excluded. -/
theorem c1_mutual_exclusion_witness :
    (1 : HandleId) ≠ 0 ∧
    (¬((LockSys.run [.tryLock 0]).believes 1 = true ∧
       (LockSys.run [.tryLock 0]).believes 0 = true) ∧
     ((LockSys.run [.tryLock 0]).believes 0 = true →
       flockTry (LockSys.run [.tryLock 0]).world 1 = none)) :=
  ⟨by decide, c1_mutual_exclusion [.tryLock 0] 1 0 (by decide)⟩

/-- Claim C10 (confirmed): when a handle holds the advisory lock, is_locked
takes the non-blocking exclusive lock on its own descriptor (no self-block),
then unlocks, releasing the lock the handle held: it returns false, the kernel
lock is free afterwards, and the descriptor field remains set. -/
theorem c10_probe_releases_lock (w : Option HandleId) (i : HandleId) (h : FileLock)
    (hw : w = some i) (hfd : h.lockfile = some FdState.opened) :
    FileLock.is_locked w i h = .ok (false, none) ∧ h.lockfile = some FdState.opened := by
  subst hw
  refine ⟨?_, hfd⟩
  simp [FileLock.is_locked, hfd, flockTry, flockRelease]

/-- Witness for C10 at a concrete holder. -/
theorem c10_probe_releases_lock_witness :
    (some 0 : Option HandleId) = some 0 ∧
    hOpen.lockfile = some FdState.opened ∧
    (FileLock.is_locked (some 0) 0 hOpen = .ok (false, none) ∧
     hOpen.lockfile = some FdState.opened) :=
  ⟨rfl, rfl, c10_probe_releases_lock (some 0) 0 hOpen rfl rfl⟩

/-- Claim C7 counterexample: the handle state reached by a timeout-failed
acquisition is reachable and on it is_locked raises (ValueError from flock on
a closed file) instead of returning a boolean. -/
theorem c7_counterexample :
    (FileLock.enter 5 envBlocked (FileLock.init pLock (some 1) false)).1
      = .raised (.timeoutError 1) ∧
    FileLock.is_locked none 0
        ((FileLock.enter 5 envBlocked (FileLock.init pLock (some 1) false)).2.1)
      = .error .valueError := by
  decide

/-- Claim C7 amended: whenever the handle's descriptor field is empty or holds
an open descriptor, is_locked returns a boolean without raising, true exactly
when the non-blocking probe would block; on the closed descriptor retained
after a failed acquisition it raises instead. -/
theorem c7_amended (w : Option HandleId) (i : HandleId) (h : FileLock)
    (hnc : h.lockfile ≠ some FdState.closed) :
    ∃ b w1, FileLock.is_locked w i h = .ok (b, w1) ∧
      (b = true ↔ (h.lockfile = some FdState.opened ∧ flockTry w i = none)) := by
  cases hl : h.lockfile with
  | none => exact ⟨false, w, by simp [FileLock.is_locked, hl], by simp [hl]⟩
  | some fd =>
    cases fd with
    | closed => exact absurd hl hnc
    | opened =>
      cases htry : flockTry w i with
      | none =>
        exact ⟨true, w, by simp [FileLock.is_locked, hl, htry], by simp [hl, htry]⟩
      | some w1 =>
        exact ⟨false, flockRelease w1 i, by simp [FileLock.is_locked, hl, htry],
          by simp [hl, htry]⟩

/-- Witness for the amended C7: a contended probe on an open descriptor. -/
theorem c7_amended_witness :
    hOpen.lockfile ≠ some FdState.closed ∧
    (∃ b w1, FileLock.is_locked (some 1) 0 hOpen = .ok (b, w1) ∧
      (b = true ↔ (hOpen.lockfile = some FdState.opened ∧ flockTry (some 1) 0 = none))) :=
  ⟨by decide, c7_amended (some 1) 0 hOpen (by decide)⟩

/-- Claim C6 counterexample: when close itself fails during release, the error
propagates to the caller and the descriptor field is not cleared. -/
theorem c6_counterexample :
    (FileLock.exit ⟨true, false⟩ hOpen).1 = .error .osFailure ∧
    ((FileLock.exit ⟨true, false⟩ hOpen).2.1).lockfile = some FdState.opened := by
  decide

/-- Claim C6 amended: release swallows every unlock failure (including the
ValueError of unlocking a closed descriptor) and clears the field when close
succeeds; but when close itself fails the error propagates and the field is
left set. -/
theorem c6_amended (u : Bool) (h : FileLock) (fd : FdState) (hfd : h.lockfile = some fd)
    (u2 : Bool) (h2 : FileLock) (hfd2 : h2.lockfile = some FdState.opened) :
    ((FileLock.exit ⟨u, true⟩ h).1 = .ok () ∧
     ((FileLock.exit ⟨u, true⟩ h).2.1).lockfile = none) ∧
    ((FileLock.exit ⟨u2, false⟩ h2).1 = .error .osFailure ∧
     ((FileLock.exit ⟨u2, false⟩ h2).2.1).lockfile = some FdState.opened) := by
  constructor
  · cases fd with
    | opened => simp [FileLock.exit, hfd, closeCall]
    | closed => simp [FileLock.exit, hfd, closeCall]
  · simp [FileLock.exit, hfd2, closeCall]

/-- Witness for the amended C6: a failing unlock on a closed descriptor is
swallowed; a failing close on an open one propagates. -/
theorem c6_amended_witness :
    hTimedOut.lockfile = some FdState.closed ∧
    hOpen.lockfile = some FdState.opened ∧
    (((FileLock.exit ⟨false, true⟩ hTimedOut).1 = .ok () ∧
      ((FileLock.exit ⟨false, true⟩ hTimedOut).2.1).lockfile = none) ∧
     ((FileLock.exit ⟨true, false⟩ hOpen).1 = .error .osFailure ∧
      ((FileLock.exit ⟨true, false⟩ hOpen).2.1).lockfile = some FdState.opened)) :=
  ⟨by decide, rfl, c6_amended false hTimedOut FdState.closed (by decide) true hOpen rfl⟩

/-- Claim C5 counterexample: a handle whose acquisition failed with the
timeout error never successfully acquired, yet releasing it changes its
observable state (the retained descriptor field is cleared), with no error. -/
theorem c5_counterexample :
    (FileLock.enter 5 envBlocked (FileLock.init pLock (some 1) false)).1
      = .raised (.timeoutError 1) ∧
    (FileLock.exit ⟨true, true⟩ hTimedOut).1 = .ok () ∧
    (FileLock.exit ⟨true, true⟩ hTimedOut).2.1 ≠ hTimedOut := by
  decide

/-- Claim C5 amended: releasing a handle whose descriptor field is empty (one
that already released, or never attempted acquisition) is a no-op with no
error; after a release whose close succeeded, a second release is a no-op, so
release after release equals a single release; releasing a handle retained
after a failed acquisition raises no error but clears the field. -/
theorem c5_amended (env : ExitEnv) (h : FileLock) (hnone : h.lockfile = none)
    (env2 : ExitEnv) (h2 : FileLock) (hc2 : env2.closeOk = true)
    (env3 : ExitEnv) (h3 : FileLock) (hcl : h3.lockfile = some FdState.closed) :
    FileLock.exit env h = (.ok (), h, []) ∧
    FileLock.exit env2 ((FileLock.exit env2 h2).2.1)
      = (.ok (), (FileLock.exit env2 h2).2.1, []) ∧
    ((FileLock.exit env3 h3).1 = .ok () ∧ ((FileLock.exit env3 h3).2.1).lockfile = none) := by
  refine ⟨?_, ?_, ?_⟩
  · simp [FileLock.exit, hnone]
  · have hcl2 := exit_clears hc2 h2
    generalize hg : (FileLock.exit env2 h2).2.1 = h4 at hcl2 ⊢
    simp [FileLock.exit, hcl2]
  · simp [FileLock.exit, hcl, closeCall]

/-- Witness for the amended C5 at concrete handles. -/
theorem c5_amended_witness :
    (FileLock.init pLock (some 1) false).lockfile = none ∧
    hTimedOut.lockfile = some FdState.closed ∧
    (FileLock.exit ⟨true, true⟩ (FileLock.init pLock (some 1) false)
       = (.ok (), FileLock.init pLock (some 1) false, []) ∧
     FileLock.exit ⟨true, true⟩ ((FileLock.exit ⟨true, true⟩ hOpen).2.1)
       = (.ok (), (FileLock.exit ⟨true, true⟩ hOpen).2.1, []) ∧
     ((FileLock.exit ⟨true, true⟩ hTimedOut).1 = .ok () ∧
      ((FileLock.exit ⟨true, true⟩ hTimedOut).2.1).lockfile = none)) :=
  ⟨rfl, by decide,
    c5_amended ⟨true, true⟩ (FileLock.init pLock (some 1) false) rfl
      ⟨true, true⟩ hOpen rfl ⟨true, true⟩ hTimedOut (by decide)⟩

/-- Claim C4 counterexample: after an acquisition attempt that fully ended
with the timeout error, the lockfile field is not empty (it retains the closed
descriptor: the code closes the file but never assigns None). -/
theorem c4_counterexample :
    (FileLock.enter 5 envBlocked (FileLock.init pLock (some 1) false)).1
      = .raised (.timeoutError 1) ∧
    ((FileLock.enter 5 envBlocked (FileLock.init pLock (some 1) false)).2.1).lockfile
      ≠ none := by
  decide

/-- Claim C4 amended: the lockfile field is empty for a handle that never
attempted acquisition and after a release whose close succeeded; after a
timeout-failed acquisition it still holds the (closed) descriptor. -/
theorem c4_amended (p : FPath) (t : Option ℚ) (b : Bool)
    (env : ExitEnv) (h : FileLock) (hce : env.closeOk = true)
    (tq : ℚ) (htq : tq ≠ 0) (envE : EnterEnv) (hE : FileLock)
    (hb : ∀ k, envE.flock k = .wouldBlock)
    (hdE : dirname hE.lockfile_path ≠ []) (hoE : envE.openOk = true)
    (htoE : hE.timeout = some tq) (fuel k : ℕ) (hk : k < fuel) (hc : envE.clock k > tq) :
    (FileLock.init p t b).lockfile = none ∧
    ((FileLock.exit env h).2.1).lockfile = none ∧
    ((FileLock.enter fuel envE hE).2.1).lockfile = some FdState.closed := by
  refine ⟨rfl, exit_clears hce h, ?_⟩
  have hp := enter_proj fuel envE hE hdE hoE
  have hloop := enterLoop_blocked_timeout htq hb fuel 0 ⟨k, hk, by simpa using hc⟩
  rw [hp.2, htoE, hloop.2]

/-- Witness for the amended C4 at a concrete timed-out acquisition. -/
theorem c4_amended_witness :
    (1 : ℚ) ≠ 0 ∧
    envBlocked.clock 0 > 1 ∧
    ((FileLock.init pLock (some 1) false).lockfile = none ∧
     ((FileLock.exit ⟨true, true⟩ hOpen).2.1).lockfile = none ∧
     ((FileLock.enter 5 envBlocked (FileLock.init pLock (some 1) false)).2.1).lockfile
       = some FdState.closed) :=
  ⟨by decide, by decide,
    c4_amended pLock (some 1) false ⟨true, true⟩ hOpen rfl 1 (by decide) envBlocked
      (FileLock.init pLock (some 1) false) (fun _ => rfl) (by decide) rfl rfl 5 0
      (by decide) (by decide)⟩

/-- Claim C2 counterexample: with timeout = 0 (a set, non-None duration) and
the lock continuously held elsewhere, the elapsed time exceeds the timeout
already at the first check, yet acquisition keeps retrying (Python truthiness
of 0 skips the timeout branch) and never raises the timeout error. -/
theorem c2_counterexample :
    envBlocked.clock 0 > 0 ∧
    (FileLock.enter 5 envBlocked (FileLock.init pLock (some 0) false)).1 = .spin ∧
    (FileLock.enter 5 envBlocked (FileLock.init pLock (some 0) false)).1
      ≠ .raised (.timeoutError 0) := by
  decide

/-- Claim C2 amended: for a handle whose timeout is a nonzero duration, under
continuous contention acquisition fails with the timeout error carrying the
configured value once the elapsed time exceeds the timeout, closing the
descriptor; with timeout None — or 0, which Python truthiness treats like
None — acquisition never fails with the timeout error and keeps retrying. -/
theorem c2_amended (t : ℚ) (ht : t ≠ 0) (env : EnterEnv) (h : FileLock)
    (hb : ∀ k, env.flock k = .wouldBlock) (hd : dirname h.lockfile_path ≠ [])
    (ho : env.openOk = true) (hto : h.timeout = some t)
    (fuel k : ℕ) (hk : k < fuel) (hc : env.clock k > t)
    (hN : FileLock) (hdN : dirname hN.lockfile_path ≠ []) (htoN : hN.timeout = none)
    (fuelN : ℕ) (x : ℚ) :
    ((FileLock.enter fuel env h).1 = .raised (.timeoutError t) ∧
     ((FileLock.enter fuel env h).2.1).lockfile = some FdState.closed) ∧
    ((FileLock.enter fuelN env hN).1 = .spin ∧
     (FileLock.enter fuelN env hN).1 ≠ .raised (.timeoutError x)) := by
  have hp := enter_proj fuel env h hd ho
  have hloop := enterLoop_blocked_timeout ht hb fuel 0 ⟨k, hk, by simpa using hc⟩
  have hpN := enter_proj fuelN env hN hdN ho
  have hspin := enterLoop_falsy_spin (t := none) rfl hb fuelN 0
  refine ⟨⟨?_, ?_⟩, ?_, ?_⟩
  · rw [hp.1, hto, hloop.1]
  · rw [hp.2, hto, hloop.2]
  · rw [hpN.1, htoN, hspin.1]
  · rw [hpN.1, htoN]
    exact enterLoop_falsy_no_timeout (t := none) rfl env fuelN 0 x

/-- Witness for the amended C2: timeout 1 fails at the first check once the
clock reads 2; timeout None keeps spinning. -/
theorem c2_amended_witness :
    (1 : ℚ) ≠ 0 ∧
    envBlocked.clock 0 > 1 ∧
    (((FileLock.enter 3 envBlocked (FileLock.init pLock (some 1) false)).1
        = .raised (.timeoutError 1) ∧
      ((FileLock.enter 3 envBlocked (FileLock.init pLock (some 1) false)).2.1).lockfile
        = some FdState.closed) ∧
     ((FileLock.enter 2 envBlocked (FileLock.init pLock none false)).1 = .spin ∧
      (FileLock.enter 2 envBlocked (FileLock.init pLock none false)).1
        ≠ .raised (.timeoutError 5))) :=
  ⟨by decide, by decide,
    c2_amended 1 (by decide) envBlocked (FileLock.init pLock (some 1) false)
      (fun _ => rfl) (by decide) rfl rfl 3 0 (by decide) (by decide)
      (FileLock.init pLock none false) (by decide) rfl 2 5⟩

/-- Claim C3 counterexample: an OS-level flock failure other than would-block
propagates out of enter while the descriptor just opened is still open — a
failing acquisition that leaves an open descriptor behind. -/
theorem c3_counterexample :
    (FileLock.enter 5 envOsFail (FileLock.init pLock none false)).1 = .raised .osFailure ∧
    ((FileLock.enter 5 envOsFail (FileLock.init pLock none false)).2.1).lockfile
      = some FdState.opened := by
  decide

/-- Claim C3 amended: the timeout failure path does close the descriptor
before the error surfaces; but a non-would-block OS failure of the flock
request propagates with the descriptor still open. -/
theorem c3_amended (t : ℚ) (ht : t ≠ 0) (env1 : EnterEnv) (h1 : FileLock)
    (hb : ∀ k, env1.flock k = .wouldBlock) (hd1 : dirname h1.lockfile_path ≠ [])
    (ho1 : env1.openOk = true) (hto1 : h1.timeout = some t)
    (fuel k : ℕ) (hk : k < fuel) (hc : env1.clock k > t)
    (env2 : EnterEnv) (h2 : FileLock) (hd2 : dirname h2.lockfile_path ≠ [])
    (ho2 : env2.openOk = true) (hf2 : env2.flock 0 = .osFail) (m : ℕ) :
    ((FileLock.enter fuel env1 h1).1 = .raised (.timeoutError t) ∧
     ((FileLock.enter fuel env1 h1).2.1).lockfile = some FdState.closed) ∧
    ((FileLock.enter (m + 1) env2 h2).1 = .raised .osFailure ∧
     ((FileLock.enter (m + 1) env2 h2).2.1).lockfile = some FdState.opened) := by
  have hp := enter_proj fuel env1 h1 hd1 ho1
  have hloop := enterLoop_blocked_timeout ht hb fuel 0 ⟨k, hk, by simpa using hc⟩
  have hp2 := enter_proj (m + 1) env2 h2 hd2 ho2
  have hos := enterLoop_osFail_first (t := h2.timeout) hf2 m
  refine ⟨⟨?_, ?_⟩, ?_, ?_⟩
  · rw [hp.1, hto1, hloop.1]
  · rw [hp.2, hto1, hloop.2]
  · rw [hp2.1, hos.1]
  · rw [hp2.2, hos.2]

/-- Witness for the amended C3. -/
theorem c3_amended_witness :
    (1 : ℚ) ≠ 0 ∧
    envBlocked.clock 0 > 1 ∧
    envOsFail.flock 0 = .osFail ∧
    (((FileLock.enter 3 envBlocked (FileLock.init pLock (some 1) false)).1
        = .raised (.timeoutError 1) ∧
      ((FileLock.enter 3 envBlocked (FileLock.init pLock (some 1) false)).2.1).lockfile
        = some FdState.closed) ∧
     ((FileLock.enter 3 envOsFail (FileLock.init pLock (some 2) false)).1
        = .raised .osFailure ∧
      ((FileLock.enter 3 envOsFail (FileLock.init pLock (some 2) false)).2.1).lockfile
        = some FdState.opened)) :=
  ⟨by decide, by decide, rfl,
    c3_amended 1 (by decide) envBlocked (FileLock.init pLock (some 1) false)
      (fun _ => rfl) (by decide) rfl rfl 3 0 (by decide) (by decide)
      envOsFail (FileLock.init pLock (some 2) false) (by decide) rfl rfl 2⟩

/-- Claim C8 counterexample: a bare filename has an empty dirname, and step 1
(os.makedirs of the dirname) fails with FileNotFoundError even though the
parent directory (the current working directory) exists, so enter fails. -/
theorem c8_counterexample :
    dirname "t.lock".data = [] ∧
    makedirs (fun _ => true) ((dirname "t.lock".data).length + 1) tmpFs
      (dirname "t.lock".data) = .error .fileNotFoundError ∧
    (FileLock.enter 5 envFree (FileLock.init "t.lock".data none false)).1
      = .raised .fileNotFoundError := by
  decide

/-- On a parent-closed filesystem (the split head of every directory in it
exists too, as in a real directory tree), `makedirs` on a directory that
already exists succeeds without creating anything, whatever the creation
permission `mk`. -/
lemma makedirs_exists_ok (mk : FPath → Bool) (n : ℕ) (fs : Fs) (d : FPath)
    (hgood : goodHead d) (hd : d ≠ []) (hlen : d.length < n)
    (hex : fsHas fs d = true)
    (hcl : ∀ q ∈ fs, (splitPath q).1 = [] ∨ fsHas fs (splitPath q).1 = true) :
    makedirs mk n fs d = .ok fs := by
  cases n with
  | zero => omega
  | succ n =>
    by_cases hA : isSlashes d = true
    · have hsp := splitPath_slashes hA
      simp only [makedirs, hsp, mkdir]
      simp [hd, hex]
    · have hlast : d.getLast? ≠ some '/' := fun hl => hA (hgood hl)
      have ht2 : (splitPath d).2 ≠ [] := splitPath_snd_ne hd hlast
      have hmem : d ∈ fs := by
        have hx := hex
        simp only [fsHas, Bool.and_eq_true, Bool.or_eq_true] at hx
        rcases hx with ⟨-, hslash | hm⟩
        · exact absurd hslash hA
        · exact of_decide_eq_true hm
      have hparent := hcl d hmem
      have hguard : ¬((splitPath d).1 ≠ [] ∧ (splitPath d).2 ≠ [] ∧
          fsHas fs (splitPath d).1 = false) := by
        rintro ⟨h1, -, h3⟩
        rcases hparent with hp | hp
        · exact h1 hp
        · rw [hp] at h3
          exact Bool.noConfusion h3
      simp only [makedirs, if_neg ht2, if_neg hguard, mkdir]
      simp [hd, hex]

/-- Claim C8 amended: step 1 succeeds when the parent directory (a non-empty
dirname) already exists, and likewise when the OS permits creating every
missing component; on a non-empty dirname it only fails when some missing
path component cannot be created; but for a bare filename the dirname is
empty, and os.makedirs of the empty string raises FileNotFoundError on every
filesystem — even though the parent, the current directory, exists. -/
theorem c8_amended (p : FPath) (fs : Fs) (mk : FPath → Bool)
    (hdp : dirname p ≠ []) (hex : fsHas fs (dirname p) = true)
    (hcl : ∀ q ∈ fs, (splitPath q).1 = [] ∨ fsHas fs (splitPath q).1 = true)
    (p2 : FPath) (fs2 : Fs) (mk2 : FPath → Bool)
    (hdp2 : dirname p2 ≠ []) (hmk2 : ∀ q, mk2 q = true)
    (p3 : FPath) (fs3 : Fs) (mk3 : FPath → Bool)
    (hdp3 : dirname p3 ≠ []) (e : PyErr)
    (hfail : makedirs mk3 ((dirname p3).length + 1) fs3 (dirname p3) = .error e)
    (fs4 : Fs) (mk4 : FPath → Bool) (n : ℕ) (hn : 0 < n) :
    makedirs mk ((dirname p).length + 1) fs (dirname p) = .ok fs ∧
    (∃ fs1, makedirs mk2 ((dirname p2).length + 1) fs2 (dirname p2) = .ok fs1) ∧
    (∃ q, mk3 q = false) ∧
    makedirs mk4 n fs4 [] = .error .fileNotFoundError := by
  refine ⟨?_, ?_, ?_, ?_⟩
  · exact makedirs_exists_ok mk ((dirname p).length + 1) fs (dirname p)
      (splitPath_fst_good p) hdp (by omega) hex hcl
  · obtain ⟨fs1, hmd, -⟩ := makedirs_ok mk2 hmk2 ((dirname p2).length + 1) fs2 (dirname p2)
      (splitPath_fst_good p2) hdp2 (by omega)
    exact ⟨fs1, hmd⟩
  · by_contra hno
    push_neg at hno
    have hall : ∀ q, mk3 q = true := by
      intro q
      cases hq : mk3 q with
      | true => rfl
      | false => exact absurd hq (hno q)
    obtain ⟨fs1, hmd, -⟩ := makedirs_ok mk3 hall ((dirname p3).length + 1) fs3 (dirname p3)
      (splitPath_fst_good p3) hdp3 (by omega)
    rw [hmd] at hfail
    exact Except.noConfusion hfail
  · obtain ⟨m, rfl⟩ : ∃ m, n = m + 1 := ⟨n - 1, by omega⟩
    have hsp : splitPath ([] : FPath) = ([], []) := rfl
    simp [makedirs, hsp, mkdir, fsHas]

/-- Witness for the amended C8: /tmp/t.lock with /tmp existing, with
everything creatable, with nothing creatable (permission denied everywhere),
and a bare filename. -/
theorem c8_amended_witness :
    dirname pLock ≠ [] ∧
    fsHas tmpFs (dirname pLock) = true ∧
    makedirs (fun _ => false) ((dirname pLock).length + 1) [] (dirname pLock)
      = .error .osFailure ∧
    (makedirs (fun _ => true) ((dirname pLock).length + 1) tmpFs (dirname pLock)
       = .ok tmpFs ∧
     (∃ fs1, makedirs (fun _ => true) ((dirname pLock).length + 1) [] (dirname pLock)
       = .ok fs1) ∧
     (∃ _ : FPath, (false : Bool) = false) ∧
     makedirs (fun _ => true) 3 [] [] = .error .fileNotFoundError) :=
  ⟨by decide, by decide, by decide,
    c8_amended pLock tmpFs (fun _ => true) (by decide) (by decide) (by decide)
      pLock [] (fun _ => true) (by decide) (fun _ => rfl)
      pLock [] (fun _ => false) (by decide) .osFailure (by decide)
      [] (fun _ => true) 3 (by decide)⟩

/-- Claim C9 (confirmed): for every path, timeout, debug flag, descriptor
state, environment and fuel, the asynchronous enter, exit and is_locked
produce the same outcome, the same lockfile field and the same effect trace
(directory creation, open, flock attempts, timeout check, 0.1 s retry delay,
unlock then close) as their synchronous counterparts. -/
theorem c9_sync_async_equal (fuel : ℕ) (envE : EnterEnv) (envX : ExitEnv) (p : FPath)
    (t : Option ℚ) (b : Bool) (fd : Option FdState) (w : Option HandleId) (i : HandleId) :
    (AsyncFileLock.aenter fuel envE ⟨p, t, b, fd⟩).1
      = (FileLock.enter fuel envE ⟨p, t, b, fd⟩).1 ∧
    ((AsyncFileLock.aenter fuel envE ⟨p, t, b, fd⟩).2.1).lockfile
      = ((FileLock.enter fuel envE ⟨p, t, b, fd⟩).2.1).lockfile ∧
    (AsyncFileLock.aenter fuel envE ⟨p, t, b, fd⟩).2.2
      = (FileLock.enter fuel envE ⟨p, t, b, fd⟩).2.2 ∧
    (AsyncFileLock.aexit envX ⟨p, t, b, fd⟩).1 = (FileLock.exit envX ⟨p, t, b, fd⟩).1 ∧
    ((AsyncFileLock.aexit envX ⟨p, t, b, fd⟩).2.1).lockfile
      = ((FileLock.exit envX ⟨p, t, b, fd⟩).2.1).lockfile ∧
    (AsyncFileLock.aexit envX ⟨p, t, b, fd⟩).2.2 = (FileLock.exit envX ⟨p, t, b, fd⟩).2.2 ∧
    AsyncFileLock.is_locked w i ⟨p, t, b, fd⟩ = FileLock.is_locked w i ⟨p, t, b, fd⟩ := by
  refine ⟨?_, ?_, ?_, ?_, ?_, ?_, ?_⟩
  · simp only [AsyncFileLock.aenter, FileLock.enter, aenterLoop_eq_enterLoop]
    cases hm : makedirs (fun _ => true) ((dirname p).length + 1) envE.fs (dirname p) with
    | error e => simp
    | ok fs1 => cases ho : envE.openOk <;> simp [ho]
  · simp only [AsyncFileLock.aenter, FileLock.enter, aenterLoop_eq_enterLoop]
    cases hm : makedirs (fun _ => true) ((dirname p).length + 1) envE.fs (dirname p) with
    | error e => simp
    | ok fs1 => cases ho : envE.openOk <;> simp [ho]
  · simp only [AsyncFileLock.aenter, FileLock.enter, aenterLoop_eq_enterLoop]
    cases hm : makedirs (fun _ => true) ((dirname p).length + 1) envE.fs (dirname p) with
    | error e => simp
    | ok fs1 => cases ho : envE.openOk <;> simp [ho]
  · simp only [AsyncFileLock.aexit, FileLock.exit]
    cases fd with
    | none => rfl
    | some fdv => cases hc : closeCall envX fdv <;> simp [hc]
  · simp only [AsyncFileLock.aexit, FileLock.exit]
    cases fd with
    | none => rfl
    | some fdv => cases hc : closeCall envX fdv <;> simp [hc]
  · simp only [AsyncFileLock.aexit, FileLock.exit]
    cases fd with
    | none => rfl
    | some fdv => cases hc : closeCall envX fdv <;> simp [hc]
  · rfl
